import Mathlib

/-!
Shallow embedding of the arbitrage decision-and-execution engine
(`src/arbitrage/arbitrage_manager.py` and `src/trading_time.py`) of the
wandou-cc/xau repository, together with theorems settling the spec claims.

Prices, spreads and thresholds are Python floats in the source; every claim
under scrutiny only compares, subtracts or takes extrema of them, so they are
modelled as rationals (`ℚ`).  The sentinel initial extrema `float('-inf')` /
`float('inf')` are modelled by `⊥ : WithBot ℚ` and `⊤ : WithTop ℚ`.
Remote calls (price fetch, position query, order placement, close-all) are
modelled by environments that carry the venue responses; the functions below
mirror the Python control flow over those responses and additionally record
the calls they issue, so that "never calls X" claims are statable.
-/

namespace XauArb

/-- Order side, as passed to the venue order placers. -/
inductive Side
  | buy
  | sell
deriving DecidableEq, Repr

/-- Trade type field of a trade-log record ("OPEN" / "CLOSE"). -/
inductive TradeType
  | OPEN
  | CLOSE
deriving DecidableEq, Repr

/-- One line of the append-only trade log, mirroring the fields of
`ArbitrageManager.log_trade` that the claims inspect (timestamps and the
exchange-name string are dropped; they are never compared). -/
structure TradeRecord where
  tradeId : ℕ
  tradeType : TradeType
  action : String
  paxgPrice : ℚ
  xauusdPrice : ℚ
  priceDiff : ℚ
  binancePositionSize : Option ℚ
  xauVolume : Option ℚ
  profit : Option ℚ
deriving DecidableEq, Repr

/-- Outbound DingTalk messages the manager can emit. -/
inductive Message
  | systemStartup
  | systemShutdown (isError : Bool)
  | arbitrageOpen
  | arbitrageClose
  | tradingStatus (isTrading : Bool)
deriving DecidableEq, Repr

/-- Is this message the system-shutdown message? -/
def Message.isShutdownMsg : Message → Bool
  | .systemShutdown _ => true
  | _ => false

/-! ## Decision rule (`should_close_position` and the decision step of
`monitor_prices`, arbitrage_manager.py:636-655 and 753-790)

Position lists are Python lists of venue-specific dicts; the decision code
inspects only their emptiness, so they are kept generic here. -/

/-- `ArbitrageManager.should_close_position` on the monitor path, where both
position lists have already been fetched and are passed in
(arbitrage_manager.py:649-655): close iff some position exists and the
absolute spread is at or below `Config.CLOSE_PRICE_DIFF`. -/
def should_close_position {α β : Type} (closePriceDiff diff : ℚ)
    (binancePositions : List α) (xauPositions : List β) : Bool :=
  let hasPositions := !binancePositions.isEmpty || !xauPositions.isEmpty
  if !hasPositions then false
  else decide (|diff| ≤ closePriceDiff)

/-- What the decision step of one monitor cycle attempts. -/
inductive CycleAction
  | closeAttempt
  | openAttempt
  | hold
deriving DecidableEq, Repr

/-- The decision step of `ArbitrageManager.monitor_prices`
(arbitrage_manager.py:768-790), evaluated on the freshly fetched position
lists: with any position present it attempts a close exactly when
`should_close_position` says so; with no positions it attempts an open exactly
when `abs(diff) >= Config.MIN_PRICE_DIFF`. -/
def monitorDecision {α β : Type} (minPriceDiff closePriceDiff diff : ℚ)
    (binancePositions : List α) (xauPositions : List β) : CycleAction :=
  if !xauPositions.isEmpty || !binancePositions.isEmpty then
    if should_close_position closePriceDiff diff binancePositions xauPositions then
      .closeAttempt
    else
      .hold
  else
    if minPriceDiff ≤ |diff| then
      .openAttempt
    else
      .hold

/-! ## Price-pair fetch (`ArbitrageManager.get_prices`, arbitrage_manager.py:353-375) -/

/-- Venue responses available to one `get_prices` call: what
`binance.get_paxg_price()` and the XAUUSD client's `get_xauusd_price()`
would return (`none` = the call failed / returned None). -/
structure PriceEnv where
  paxgPrice : Option ℚ
  xauusdPrice : Option ℚ
deriving DecidableEq, Repr

/-- Result of `get_prices`: the returned pair, plus whether the XAUUSD venue
was queried at all during the call. -/
structure PriceFetchResult where
  prices : Option ℚ × Option ℚ
  xauQueried : Bool
deriving DecidableEq, Repr

/-- `ArbitrageManager.get_prices` (arbitrage_manager.py:353-375): if the PAXG
price is None, return `(None, None)` without querying the XAUUSD venue;
otherwise query it, and if that price is None also return `(None, None)`. -/
def get_prices (env : PriceEnv) : PriceFetchResult :=
  match env.paxgPrice with
  | none => ⟨(none, none), false⟩
  | some paxg =>
    match env.xauusdPrice with
    | none => ⟨(none, none), true⟩
    | some xau => ⟨(some paxg, some xau), true⟩

/-! ## Trading-window transition notifications
(`ArbitrageManager._check_and_notify_trading_status_change`,
arbitrage_manager.py:815-843) -/

/-- One status check: given the recorded `last_trading_status` and the fresh
`is_trading_time()` result, returns the new recorded status and whether a
transition notification was emitted.  The notification branch fires exactly
when the recorded status is not None and differs from the fresh one. -/
def check_and_notify_trading_status_change (lastTradingStatus : Option Bool)
    (isTrading : Bool) : Option Bool × Bool :=
  let notified :=
    match lastTradingStatus with
    | some last => last != isTrading
    | none => false
  (some isTrading, notified)

/-- Run a sequence of status checks, counting emitted notifications. -/
def runStatusChecks : Option Bool → List Bool → Option Bool × ℕ
  | last, [] => (last, 0)
  | last, isTrading :: rest =>
    let r := check_and_notify_trading_status_change last isTrading
    let tail := runStatusChecks r.1 rest
    (tail.1, (if r.2 then 1 else 0) + tail.2)

/-! ## Spread tracker (`ArbitrageManager.update_diff_stats`,
arbitrage_manager.py:403-439)

`max_diff` is initialised to `float('-inf')` and `min_diff` to
`float('inf')` (arbitrage_manager.py:105-106); these sentinels are `⊥` /
`⊤`.  Timestamps and the statistics-log line do not feature in the claim
and are omitted. -/

/-- The spread-extrema state held by the manager. -/
structure DiffStats where
  maxDiff : WithBot ℚ
  minDiff : WithTop ℚ
deriving DecidableEq, Repr

/-- The extrema at manager construction time. -/
def initDiffStats : DiffStats := ⟨⊥, ⊤⟩

/-- `ArbitrageManager.update_diff_stats`: bump `max_diff` if the observed
diff strictly exceeds it, bump `min_diff` if the diff is strictly below it. -/
def update_diff_stats (s : DiffStats) (diff : ℚ) : DiffStats :=
  let newMax := if s.maxDiff < (diff : WithBot ℚ) then (diff : WithBot ℚ) else s.maxDiff
  let newMin := if (diff : WithTop ℚ) < s.minDiff then (diff : WithTop ℚ) else s.minDiff
  ⟨newMax, newMin⟩

/-- Feed a whole sequence of observed diffs through the tracker, starting
from the initial sentinels. -/
def runDiffStats (l : List ℚ) : DiffStats := l.foldl update_diff_stats initDiffStats

/-! ## Consecutive-error circuit breaker (the price-fetch branch of
`ArbitrageManager.monitor_prices`, arbitrage_manager.py:706-739) -/

/-- The loop state the breaker logic touches: the consecutive-error counter,
the one-shot `_shutdown_called` flag set by `shutdown_system`, and the
`is_error` argument that shutdown was invoked with. -/
structure LoopState where
  consecutiveErrors : ℕ
  shutdownCalled : Bool
  isErrorShutdown : Bool
deriving DecidableEq, Repr

/-- One monitor-loop iteration restricted to a price-fetch outcome
(`fetchOk = true` iff both prices came back).  Mirrors
arbitrage_manager.py:709, 727-739: a stopped loop does nothing; a success
resets the counter to zero; a failure increments it and, when the counter
reaches `maxConsecutiveErrors`, calls `shutdown_system(..., True)` and
breaks out of the loop. -/
def monitorFetchStep (maxConsecutiveErrors : ℕ) (s : LoopState) (fetchOk : Bool) :
    LoopState :=
  if s.shutdownCalled then s
  else if fetchOk then { s with consecutiveErrors := 0 }
  else
    let c := s.consecutiveErrors + 1
    if maxConsecutiveErrors ≤ c then ⟨c, true, true⟩
    else { s with consecutiveErrors := c }

/-- Run the monitor loop over a sequence of price-fetch outcomes from a fresh
start (`consecutive_errors = 0`, not shut down), with the source's
`max_consecutive_errors = 5` (arbitrage_manager.py:707). -/
def runMonitorFetch (outcomes : List Bool) : LoopState :=
  outcomes.foldl (monitorFetchStep 5) ⟨0, false, false⟩

/-! ## Manager state and order execution
(`ArbitrageManager.open_position` / `close_position` / `shutdown_system`,
arbitrage_manager.py:441-634 and 322-351) -/

/-- The process-lifetime mutable state of `ArbitrageManager` touched by the
open/close/shutdown paths: the trade-id counter, the completed-trade counter,
the append-only trade log, the one-shot shutdown flag, whether a DingTalk
notifier was initialised, the emitted messages, and the count of
shutdown log lines. -/
structure ManagerState where
  positionOpen : Bool
  tradeId : ℕ
  totalTradesCount : ℕ
  tradeLog : List TradeRecord
  shutdownCalled : Bool
  hasNotifier : Bool
  messages : List Message
  shutdownLogCount : ℕ
deriving DecidableEq, Repr

/-- A live position as reported by a venue; the open path only inspects the
emptiness of the reported lists, so the payload is a bare id. -/
structure VenuePosition where
  posId : ℕ
deriving DecidableEq, Repr

/-- Remote responses available to one `open_position` call: the two fresh
position queries, and what each venue's order placer would return
(`none` = the order call failed / returned None). -/
structure OpenEnv where
  binancePositions : List VenuePosition
  xauPositions : List VenuePosition
  paxgOrderResult : Option ℕ
  xauOrderResult : Option ℕ
deriving DecidableEq, Repr

/-- The order calls issued during one `open_position` run: each entry is the
(side, size) actually submitted to that venue. -/
structure OpenCalls where
  paxgOrders : List (Side × ℚ)
  xauOrders : List (Side × ℚ)
deriving DecidableEq, Repr

/-- Static configuration consumed by `open_position`: `Config.PAXG_QUANTITY`
and which XAUUSD venue was initialised (`Config.USE_XAU_OKX`). -/
structure OpenConfig where
  paxgQuantity : ℚ
  useOkx : Bool
deriving DecidableEq, Repr

/-- `ArbitrageManager.open_position` (arbitrage_manager.py:441-573).
Control flow mirrored: (1) re-check positions on both venues and skip
(return False, nothing submitted, state untouched) if either list is
non-empty; (2) increment `trade_id`, size the legs, choose directions from
the sign of the diff; (3) submit the PAXG order and abort (return False, no
XAUUSD order) if it returns None; (4) submit the XAUUSD order — even if it
returns None the code proceeds (logging a warning) — append an OPEN trade
record, bump `total_trades_count`, emit the open message, return True. -/
def open_position (cfg : OpenConfig) (st : ManagerState) (env : OpenEnv)
    (paxgPrice xauusdPrice diff : ℚ) : ManagerState × Bool × OpenCalls :=
  if !env.binancePositions.isEmpty then (st, false, ⟨[], []⟩)
  else if !env.xauPositions.isEmpty then (st, false, ⟨[], []⟩)
  else
    let st1 := { st with tradeId := st.tradeId + 1 }
    let paxgQuantity := cfg.paxgQuantity
    let binancePositionSizeUsdt := paxgQuantity * paxgPrice
    let xauVolume := if cfg.useOkx then paxgQuantity * 1000 else paxgQuantity / 100
    let action := if 0 < diff then "SELL PAXG, LONG XAUUSD" else "BUY PAXG, SHORT XAUUSD"
    let paxgSide : Side := if 0 < diff then .sell else .buy
    let xauAction : Side := if 0 < diff then .buy else .sell
    match env.paxgOrderResult with
    | none => (st1, false, ⟨[(paxgSide, binancePositionSizeUsdt)], []⟩)
    | some _ =>
      let record : TradeRecord :=
        { tradeId := st1.tradeId
          tradeType := .OPEN
          action := action
          paxgPrice := paxgPrice
          xauusdPrice := xauusdPrice
          priceDiff := diff
          binancePositionSize := some binancePositionSizeUsdt
          xauVolume := some xauVolume
          profit := none }
      let st2 :=
        { st1 with
          positionOpen := true
          tradeLog := st1.tradeLog ++ [record]
          totalTradesCount := st1.totalTradesCount + 1
          messages := st1.messages ++ if st1.hasNotifier then [.arbitrageOpen] else [] }
      (st2, true, ⟨[(paxgSide, binancePositionSizeUsdt)], [(xauAction, xauVolume)]⟩)

/-- Remote responses available to one `close_position` call: whether each
venue's `close_all_positions()` returned True. -/
structure CloseEnv where
  binanceCloseSuccess : Bool
  xauCloseSuccess : Bool
deriving DecidableEq, Repr

/-- `ArbitrageManager.close_position` (arbitrage_manager.py:575-634).
Both venues' close-all calls are issued unconditionally; a CLOSE trade record
is appended when at least one succeeded; if both failed the function returns
False, otherwise it resets `position_open`, emits the close message and
returns True. -/
def close_position (st : ManagerState) (env : CloseEnv)
    (paxgPrice xauusdPrice diff : ℚ) : ManagerState × Bool :=
  let binanceSuccess := env.binanceCloseSuccess
  let xauSuccess := env.xauCloseSuccess
  let record : TradeRecord :=
    { tradeId := st.tradeId
      tradeType := .CLOSE
      action := "MARKET_CLOSE_ALL"
      paxgPrice := paxgPrice
      xauusdPrice := xauusdPrice
      priceDiff := diff
      binancePositionSize := some 0
      xauVolume := some 0
      profit := some 0 }
  let st1 :=
    if binanceSuccess || xauSuccess then { st with tradeLog := st.tradeLog ++ [record] }
    else st
  if !binanceSuccess && !xauSuccess then (st1, false)
  else
    ({ st1 with
        positionOpen := false
        messages := st1.messages ++ if st1.hasNotifier then [.arbitrageClose] else [] },
      true)

/-- `ArbitrageManager.shutdown_system` (arbitrage_manager.py:322-351): a
repeated call returns immediately on the `_shutdown_called` flag; the first
call sets the flag, logs the shutdown once and, when a notifier exists, sends
the shutdown message carrying the `is_error` flag. -/
def shutdown_system (st : ManagerState) (isError : Bool) : ManagerState :=
  if st.shutdownCalled then st
  else
    { st with
      shutdownCalled := true
      shutdownLogCount := st.shutdownLogCount + 1
      messages := st.messages ++ if st.hasNotifier then [.systemShutdown isError] else [] }

/-! ## Calendar blocking wait and external interrupt signals
(`TradingTimeManager.wait_until_trading_time`, trading_time.py:318-359, its
call sites in `monitor_prices`, arbitrage_manager.py:692-699 / 717-725, and
the signal wiring of the assembled program, main.py:9-14 and 24-25)

`main` installs a handler for SIGINT/SIGTERM before the engine runs
(main.py:24-25).  An external interrupt signal delivered while the engine
blocks inside the calendar wait therefore runs that handler at the
interruption point: it calls `shutdown_system(..., is_error=False)` and
then `sys.exit(0)`, which raises `SystemExit` there (main.py:9-14).
`SystemExit` derives from `BaseException` only, so the wait loop's
`except KeyboardInterrupt:` / `except Exception:` clauses
(trading_time.py:354, 357), the monitor's handlers
(arbitrage_manager.py:723, 795, 799) and `main`'s handlers
(main.py:34-42) all let it pass: the stack unwinds and the process exits.
Exceptions are modelled with `Except`: an escaping `SystemExit` is the
`.error` component, a normal return the `.ok` component; the manager state
is threaded so the handler's `shutdown_system` call is the embedding
above. -/

/-- The `SystemExit` exception raised by `sys.exit(0)`. -/
inductive SystemExit
  | mk
deriving DecidableEq, Repr

/-- `TradingTimeManager.wait_until_trading_time` as executed in the
assembled program, over a finite trace of iteration events
`(is_trading_time result, external interrupt signal delivered?)`.
Per iteration (trading_time.py:327-359): if `is_trading_time()` is true the
loop breaks and the wait returns normally; otherwise, if SIGINT/SIGTERM is
delivered during the iteration's blocking part (e.g. inside `time.sleep`),
the installed handler calls `shutdown_system(..., False)` and raises
`SystemExit`, which neither `except KeyboardInterrupt:` nor
`except Exception:` catches, so it escapes the wait at once; otherwise the
loop continues with the next event. -/
def wait_until_trading_time (st : ManagerState) :
    List (Bool × Bool) → ManagerState × Except SystemExit Unit
  | [] => (st, .ok ())
  | (isTrading, signalDelivered) :: rest =>
    if isTrading then (st, .ok ())
    else if signalDelivered then (shutdown_system st false, .error .mk)
    else wait_until_trading_time st rest

/-- What the engine does after the guarded calendar wait. -/
inductive MonitorAfterWait
  | resumedMonitoring
  | stoppedMonitoring
deriving DecidableEq, Repr

/-- The guarded wait call in `monitor_prices` within the assembled program
(arbitrage_manager.py:717-725, main.py:22-42): when the wait returns
normally the monitoring loop is resumed ("交易时间恢复, continue"); when
`SystemExit` escapes the wait, none of the surrounding handlers catch it —
they catch only `KeyboardInterrupt` and `Exception` — so monitoring stops
and the process exits. -/
def monitorWaitPhase (st : ManagerState) (events : List (Bool × Bool)) :
    ManagerState × MonitorAfterWait :=
  match wait_until_trading_time st events with
  | (st', .ok _) => (st', .resumedMonitoring)
  | (st', .error _) => (st', .stoppedMonitoring)

/-! ## Theorems -/

/-- C1: in a poll cycle with both prices obtained, evaluated against the live
position queries, the engine attempts a close exactly when some position list
is non-empty and `abs(diff) <= Config.CLOSE_PRICE_DIFF`, and attempts an open
exactly when both lists are empty and `abs(diff) >= Config.MIN_PRICE_DIFF`;
hence with no positions and `abs(diff)` below the open threshold no open is
attempted, and with positions and `abs(diff)` above the close threshold no
close is attempted. -/
theorem decision_rule_open_close {α β : Type} (minPriceDiff closePriceDiff diff : ℚ)
    (binancePositions : List α) (xauPositions : List β) :
    (monitorDecision minPriceDiff closePriceDiff diff binancePositions xauPositions =
        CycleAction.closeAttempt ↔
      ((binancePositions ≠ [] ∨ xauPositions ≠ []) ∧ |diff| ≤ closePriceDiff)) ∧
    (monitorDecision minPriceDiff closePriceDiff diff binancePositions xauPositions =
        CycleAction.openAttempt ↔
      (binancePositions = [] ∧ xauPositions = [] ∧ minPriceDiff ≤ |diff|)) := by
  rcases binancePositions with _ | ⟨b, bs⟩ <;> rcases xauPositions with _ | ⟨x, xs⟩ <;>
    by_cases hc : |diff| ≤ closePriceDiff <;> by_cases ho : minPriceDiff ≤ |diff| <;>
      simp [monitorDecision, should_close_position, hc, ho]

/-- Witness for C1: default thresholds 6/2, diff 7, no positions on either
venue: the engine attempts an open. -/
theorem decision_rule_open_close_witness :
    monitorDecision 6 2 7 ([] : List Unit) ([] : List Unit) = CycleAction.openAttempt :=
  (decision_rule_open_close 6 2 7 [] []).2.mpr ⟨rfl, rfl, by norm_num⟩

/-- C10: `get_prices` returns either both prices or `(None, None)`, never
exactly one side; and when the PAXG price is unavailable the XAUUSD venue is
not queried at all. -/
theorem get_prices_all_or_nothing (env : PriceEnv) :
    ((get_prices env).prices = (none, none) ∨
      ∃ a b, (get_prices env).prices = (some a, some b)) ∧
    (env.paxgPrice = none → (get_prices env).xauQueried = false) := by
  obtain ⟨p, x⟩ := env
  cases p <;> cases x <;> simp [get_prices]

/-- Witness for C10: with the PAXG price missing and an XAUUSD price
available, the XAUUSD venue is not queried. -/
theorem get_prices_all_or_nothing_witness :
    (get_prices ⟨none, some 1⟩).xauQueried = false :=
  (get_prices_all_or_nothing ⟨none, some 1⟩).2 rfl

/-- C9: a trading-status notification is emitted in a check exactly when the
recorded previous state exists and differs from the fresh one, and over any
sequence of checks the number of notifications equals the number of
open↔closed edges between consecutive states (so nothing repeats while the
state is unchanged). -/
theorem trading_status_edge_notifications :
    (∀ (lastTradingStatus : Option Bool) (isTrading : Bool),
        (check_and_notify_trading_status_change lastTradingStatus isTrading).2 = true ↔
          ∃ prev, lastTradingStatus = some prev ∧ prev ≠ isTrading) ∧
    (∀ (s0 : Bool) (l : List Bool),
        (runStatusChecks (some s0) l).2 =
          ((s0 :: l).zip l).countP (fun p => p.1 != p.2)) := by
  constructor
  · intro lastTradingStatus isTrading
    cases lastTradingStatus with
    | none => simp [check_and_notify_trading_status_change]
    | some prev => simp [check_and_notify_trading_status_change, bne_iff_ne]
  · intro s0 l
    induction l generalizing s0 with
    | nil => rfl
    | cons b t ih =>
      simp only [runStatusChecks, check_and_notify_trading_status_change,
        List.zip_cons_cons, List.countP_cons, ih b]
      by_cases h : s0 = b
      · simp [h]
      · simp [h]
        omega

/-- Witness for C9: states true, [true, false, false, true] have two edges
(open→closed, closed→open) and exactly two notifications are emitted. -/
theorem trading_status_edge_notifications_witness :
    (runStatusChecks (some true) [true, false, false, true]).2 = 2 := by
  rw [trading_status_edge_notifications.2]
  rfl

/-- One tracker step updates `maxDiff` to the max of the old value and the
observed diff. -/
lemma update_diff_stats_max (s : DiffStats) (d : ℚ) :
    (update_diff_stats s d).maxDiff = max s.maxDiff (d : WithBot ℚ) := by
  simp only [update_diff_stats]
  rcases le_or_lt (d : WithBot ℚ) s.maxDiff with h | h
  · rw [if_neg (not_lt.mpr h), max_eq_left h]
  · rw [if_pos h, max_eq_right h.le]

/-- One tracker step updates `minDiff` to the min of the old value and the
observed diff. -/
lemma update_diff_stats_min (s : DiffStats) (d : ℚ) :
    (update_diff_stats s d).minDiff = min s.minDiff (d : WithTop ℚ) := by
  simp only [update_diff_stats]
  rcases le_or_lt s.minDiff (d : WithTop ℚ) with h | h
  · rw [if_neg (not_lt.mpr h), min_eq_left h]
  · rw [if_pos h, min_eq_right h.le]

/-- `maxDiff` never decreases over any run of observations. -/
lemma foldl_update_max_mono (l : List ℚ) : ∀ s : DiffStats,
    s.maxDiff ≤ (l.foldl update_diff_stats s).maxDiff := by
  induction l with
  | nil => intro s; simp
  | cons a t ih =>
    intro s
    simp only [List.foldl_cons]
    exact le_trans (by rw [update_diff_stats_max]; exact le_max_left _ _) (ih _)

/-- `minDiff` never increases over any run of observations. -/
lemma foldl_update_min_mono (l : List ℚ) : ∀ s : DiffStats,
    (l.foldl update_diff_stats s).minDiff ≤ s.minDiff := by
  induction l with
  | nil => intro s; simp
  | cons a t ih =>
    intro s
    simp only [List.foldl_cons]
    exact le_trans (ih _) (by rw [update_diff_stats_min]; exact min_le_left _ _)

/-- Every observed diff is bounded by the final `maxDiff`. -/
lemma foldl_update_max_mem_le (l : List ℚ) : ∀ (s : DiffStats) (d : ℚ), d ∈ l →
    (d : WithBot ℚ) ≤ (l.foldl update_diff_stats s).maxDiff := by
  induction l with
  | nil => intro s d h; simp at h
  | cons a t ih =>
    intro s d hd
    simp only [List.foldl_cons]
    rcases List.mem_cons.mp hd with h | h
    · subst h
      exact le_trans (by rw [update_diff_stats_max]; exact le_max_right _ _)
        (foldl_update_max_mono t _)
    · exact ih _ d h

/-- Every observed diff bounds the final `minDiff` from above. -/
lemma foldl_update_min_mem_le (l : List ℚ) : ∀ (s : DiffStats) (d : ℚ), d ∈ l →
    (l.foldl update_diff_stats s).minDiff ≤ (d : WithTop ℚ) := by
  induction l with
  | nil => intro s d h; simp at h
  | cons a t ih =>
    intro s d hd
    simp only [List.foldl_cons]
    rcases List.mem_cons.mp hd with h | h
    · subst h
      exact le_trans (foldl_update_min_mono t _)
        (by rw [update_diff_stats_min]; exact min_le_right _ _)
    · exact ih _ d h

/-- The final `maxDiff` is either the starting value or an observed diff. -/
lemma foldl_update_max_attained (l : List ℚ) : ∀ s : DiffStats,
    (l.foldl update_diff_stats s).maxDiff = s.maxDiff ∨
      ∃ d ∈ l, (l.foldl update_diff_stats s).maxDiff = (d : WithBot ℚ) := by
  induction l with
  | nil => intro s; exact Or.inl rfl
  | cons a t ih =>
    intro s
    simp only [List.foldl_cons]
    rcases ih (update_diff_stats s a) with h | ⟨d, hd, h⟩
    · rw [h, update_diff_stats_max]
      rcases max_cases s.maxDiff ((a : WithBot ℚ)) with ⟨he, _⟩ | ⟨he, _⟩
      · exact Or.inl he
      · exact Or.inr ⟨a, List.mem_cons_self a t, he⟩
    · exact Or.inr ⟨d, List.mem_cons_of_mem _ hd, h⟩

/-- The final `minDiff` is either the starting value or an observed diff. -/
lemma foldl_update_min_attained (l : List ℚ) : ∀ s : DiffStats,
    (l.foldl update_diff_stats s).minDiff = s.minDiff ∨
      ∃ d ∈ l, (l.foldl update_diff_stats s).minDiff = (d : WithTop ℚ) := by
  induction l with
  | nil => intro s; exact Or.inl rfl
  | cons a t ih =>
    intro s
    simp only [List.foldl_cons]
    rcases ih (update_diff_stats s a) with h | ⟨d, hd, h⟩
    · rw [h, update_diff_stats_min]
      rcases min_cases s.minDiff ((a : WithTop ℚ)) with ⟨he, _⟩ | ⟨he, _⟩
      · exact Or.inl he
      · exact Or.inr ⟨a, List.mem_cons_self a t, he⟩
    · exact Or.inr ⟨d, List.mem_cons_of_mem _ hd, h⟩

/-- C3: over any sequence of observations, `max_diff` is non-decreasing and
`min_diff` non-increasing; after any sequence every observed diff lies
between them; and after any non-empty sequence each extremum is exactly one
of the observed diffs (equal observations change nothing, so the bounds are
inclusive). -/
theorem spread_extrema_monotone_exact :
    (∀ (s : DiffStats) (l : List ℚ),
        s.maxDiff ≤ (l.foldl update_diff_stats s).maxDiff ∧
          (l.foldl update_diff_stats s).minDiff ≤ s.minDiff) ∧
    (∀ l : List ℚ, ∀ d ∈ l,
        (d : WithBot ℚ) ≤ (runDiffStats l).maxDiff ∧
          (runDiffStats l).minDiff ≤ (d : WithTop ℚ)) ∧
    (∀ l : List ℚ, l ≠ [] →
        (∃ d ∈ l, (runDiffStats l).maxDiff = (d : WithBot ℚ)) ∧
          ∃ d ∈ l, (runDiffStats l).minDiff = (d : WithTop ℚ)) := by
  refine ⟨fun s l => ⟨foldl_update_max_mono l s, foldl_update_min_mono l s⟩,
    fun l d hd => ⟨foldl_update_max_mem_le l _ d hd, foldl_update_min_mem_le l _ d hd⟩,
    fun l hl => ⟨?_, ?_⟩⟩
  · rcases foldl_update_max_attained l initDiffStats with h | h
    · exfalso
      obtain ⟨d, hd⟩ := List.exists_mem_of_ne_nil l hl
      have hle := foldl_update_max_mem_le l initDiffStats d hd
      rw [h] at hle
      simp [initDiffStats] at hle
    · exact h
  · rcases foldl_update_min_attained l initDiffStats with h | h
    · exfalso
      obtain ⟨d, hd⟩ := List.exists_mem_of_ne_nil l hl
      have hle := foldl_update_min_mem_le l initDiffStats d hd
      rw [h] at hle
      simp [initDiffStats] at hle
    · exact h

/-- Witness for C3: after observing diffs 3 and -2, `max_diff` is one of the
observed diffs. -/
theorem spread_extrema_monotone_exact_witness :
    ∃ d ∈ ([3, -2] : List ℚ), (runDiffStats [3, -2]).maxDiff = (d : WithBot ℚ) :=
  (spread_extrema_monotone_exact.2.2 [3, -2] (by simp)).1

/-- A stopped loop ignores further fetch outcomes. -/
lemma monitorFetchStep_shutdown (maxE : ℕ) (s : LoopState) (b : Bool)
    (h : s.shutdownCalled = true) : monitorFetchStep maxE s b = s := by
  simp [monitorFetchStep, h]

/-- A stopped loop ignores any further sequence of fetch outcomes. -/
lemma foldl_monitorFetchStep_shutdown (maxE : ℕ) (l : List Bool) (s : LoopState)
    (h : s.shutdownCalled = true) : l.foldl (monitorFetchStep maxE) s = s := by
  induction l with
  | nil => rfl
  | cons b t ih => rw [List.foldl_cons, monitorFetchStep_shutdown _ _ _ h, ih]

/-- From a live state with counter `c < 5` the breaker fires exactly when the
remaining outcomes start with `5 - c` straight failures or contain five
straight failures somewhere. -/
lemma breaker_aux (l : List Bool) : ∀ c : ℕ, c < 5 →
    ((l.foldl (monitorFetchStep 5) ⟨c, false, false⟩).shutdownCalled = true ↔
      (List.replicate (5 - c) false <+: l ∨ List.replicate 5 false <:+: l)) := by
  induction l with
  | nil =>
    intro c hc
    simp only [List.foldl_nil, List.prefix_nil, List.infix_nil,
      List.replicate_eq_nil_iff]
    simp
    omega
  | cons b t ih =>
    intro c hc
    cases b with
    | true =>
      have hstep : monitorFetchStep 5 ⟨c, false, false⟩ true = ⟨0, false, false⟩ := by
        simp [monitorFetchStep]
      rw [List.foldl_cons, hstep, ih 0 (by omega)]
      obtain ⟨k, hk⟩ : ∃ k, 5 - c = k + 1 := ⟨4 - c, by omega⟩
      have f1 : ¬ (List.replicate (5 - c) false <+: (true :: t)) := by
        rw [hk, List.replicate_succ, List.cons_prefix_cons]
        simp
      have e2 : List.replicate 5 false = false :: List.replicate 4 false := rfl
      have f2 : (List.replicate 5 false <:+: (true :: t)) ↔
          (List.replicate 5 false <:+: t) := by
        rw [List.infix_cons_iff, e2, List.cons_prefix_cons]
        simp
      constructor
      · rintro (h | h)
        · exact Or.inr (f2.mpr h.isInfix)
        · exact Or.inr (f2.mpr h)
      · rintro (h | h)
        · exact absurd h f1
        · rw [show (5 - 0 : ℕ) = 5 from rfl]
          exact Or.inr (f2.mp h)
    | false =>
      by_cases h5 : 5 ≤ c + 1
      · have hc4 : c = 4 := by omega
        subst hc4
        have hstep : monitorFetchStep 5 ⟨4, false, false⟩ false = ⟨5, true, true⟩ := by
          simp [monitorFetchStep]
        rw [List.foldl_cons, hstep, foldl_monitorFetchStep_shutdown 5 t _ rfl]
        have hpre : List.replicate (5 - 4) false <+: (false :: t) := by
          rw [show (5 - 4 : ℕ) = 1 from rfl, List.replicate_succ, List.replicate_zero,
            List.cons_prefix_cons]
          exact ⟨rfl, List.nil_prefix⟩
        constructor
        · intro _
          exact Or.inl hpre
        · intro _
          rfl
      · have hstep : monitorFetchStep 5 ⟨c, false, false⟩ false =
            ⟨c + 1, false, false⟩ := by
          simp [monitorFetchStep, h5]
        rw [List.foldl_cons, hstep, ih (c + 1) (by omega),
          show 5 - (c + 1) = 4 - c by omega]
        have e1 : List.replicate (5 - c) false = false :: List.replicate (4 - c) false := by
          rw [show 5 - c = (4 - c) + 1 by omega, List.replicate_succ]
        have f1 : (List.replicate (5 - c) false <+: (false :: t)) ↔
            (List.replicate (4 - c) false <+: t) := by
          rw [e1, List.cons_prefix_cons]
          simp
        have e2 : List.replicate 5 false = false :: List.replicate 4 false := rfl
        have f2 : (List.replicate 5 false <:+: (false :: t)) ↔
            ((List.replicate 4 false <+: t) ∨ List.replicate 5 false <:+: t) := by
          rw [List.infix_cons_iff, e2, List.cons_prefix_cons]
          simp
        have f3 : List.replicate (4 - c) false <+: List.replicate 4 false := by
          have hap := List.prefix_append (List.replicate (4 - c) false)
            (List.replicate c false)
          rwa [← List.replicate_add, show 4 - c + c = 4 by omega] at hap
        constructor
        · rintro (h | h)
          · exact Or.inl (f1.mpr h)
          · exact Or.inr (f2.mpr (Or.inr h))
        · rintro (h | h)
          · exact Or.inl (f1.mp h)
          · rcases f2.mp h with h4 | hinf
            · exact Or.inl (f3.trans h4)
            · exact Or.inr hinf

/-- The breaker only ever sets the error flag together with the shutdown
flag: both agree along any run that starts with them in agreement. -/
lemma foldl_isError_eq_shutdown (l : List Bool) : ∀ s : LoopState,
    s.isErrorShutdown = s.shutdownCalled →
    (l.foldl (monitorFetchStep 5) s).isErrorShutdown =
      (l.foldl (monitorFetchStep 5) s).shutdownCalled := by
  induction l with
  | nil => intro s h; exact h
  | cons b t ih =>
    intro s h
    rw [List.foldl_cons]
    apply ih
    by_cases hs : s.shutdownCalled = true
    · rw [monitorFetchStep_shutdown _ _ _ hs]
      exact h
    · have hs' : s.shutdownCalled = false := by simpa using hs
      cases b
      · by_cases h5 : 5 ≤ s.consecutiveErrors + 1 <;>
          simp [monitorFetchStep, hs', h5, h]
      · simpa [monitorFetchStep, hs'] using h

/-- C4: running the monitor loop over a sequence of price-fetch outcomes,
shutdown is triggered exactly when five consecutive failures occur somewhere
in the sequence (so four failures never trigger it), any triggered shutdown
carries the error flag, and a successful fetch resets the consecutive-error
counter to zero. -/
theorem breaker_exactly_five :
    (∀ outcomes : List Bool,
        (runMonitorFetch outcomes).shutdownCalled = true ↔
          (List.replicate 5 false) <:+: outcomes) ∧
    (∀ outcomes : List Bool, (runMonitorFetch outcomes).shutdownCalled = true →
        (runMonitorFetch outcomes).isErrorShutdown = true) ∧
    (∀ outcomes : List Bool, (runMonitorFetch outcomes).shutdownCalled = false →
        (runMonitorFetch (outcomes ++ [true])).consecutiveErrors = 0 ∧
          (runMonitorFetch (outcomes ++ [true])).shutdownCalled = false) := by
  refine ⟨fun l => ?_, fun l h => ?_, fun l h => ?_⟩
  · have h := breaker_aux l 0 (by omega)
    rw [show (5 - 0 : ℕ) = 5 from rfl] at h
    constructor
    · intro hs
      rcases h.mp hs with hp | hi
      · exact hp.isInfix
      · exact hi
    · intro hi
      exact h.mpr (Or.inr hi)
  · have := foldl_isError_eq_shutdown l ⟨0, false, false⟩ rfl
    rw [runMonitorFetch] at h ⊢
    rw [this, h]
  · rw [runMonitorFetch] at h
    rw [runMonitorFetch, List.foldl_append]
    constructor <;> simp [monitorFetchStep, h]

/-- Witness for C4: four consecutive failures followed by a success leave the
loop alive with the counter reset to zero. -/
theorem breaker_exactly_five_witness :
    (runMonitorFetch ([false, false, false, false] ++ [true])).consecutiveErrors = 0 ∧
      (runMonitorFetch ([false, false, false, false] ++ [true])).shutdownCalled = false :=
  breaker_exactly_five.2.2 [false, false, false, false] (by decide)

/-- C2: whenever the leg-A (Binance PAXG) order submission returns None, the
open operation reports failure and zero XAUUSD (leg-B) orders are submitted. -/
theorem open_fail_fast_legA (cfg : OpenConfig) (st : ManagerState) (env : OpenEnv)
    (paxgPrice xauusdPrice diff : ℚ) (h : env.paxgOrderResult = none) :
    (open_position cfg st env paxgPrice xauusdPrice diff).2.1 = false ∧
      (open_position cfg st env paxgPrice xauusdPrice diff).2.2.xauOrders = [] := by
  obtain ⟨bp, xp, po, xo⟩ := env
  simp only at h
  subst h
  rcases bp with _ | ⟨b, bs⟩ <;> rcases xp with _ | ⟨x, xs⟩ <;>
    simp [open_position]

/-- Witness for C2: empty positions, PAXG order fails: the open fails and no
XAUUSD order is ever submitted. -/
theorem open_fail_fast_legA_witness :
    (open_position ⟨1/100, true⟩ ⟨false, 0, 0, [], false, true, [], 0⟩
        ⟨[], [], none, none⟩ 3341 3334 7).2.1 = false ∧
      (open_position ⟨1/100, true⟩ ⟨false, 0, 0, [], false, true, [], 0⟩
          ⟨[], [], none, none⟩ 3341 3334 7).2.2.xauOrders = [] :=
  open_fail_fast_legA ⟨1/100, true⟩ ⟨false, 0, 0, [], false, true, [], 0⟩
    ⟨[], [], none, none⟩ 3341 3334 7 rfl

/-- C5: if the fresh position re-check reports an existing position on either
venue, the open operation returns False with the manager state completely
unchanged (no trade record, no counter change) and with zero order calls on
either venue. -/
theorem open_skip_when_position_exists (cfg : OpenConfig) (st : ManagerState)
    (env : OpenEnv) (paxgPrice xauusdPrice diff : ℚ)
    (h : env.binancePositions ≠ [] ∨ env.xauPositions ≠ []) :
    open_position cfg st env paxgPrice xauusdPrice diff = (st, false, ⟨[], []⟩) := by
  obtain ⟨bp, xp, po, xo⟩ := env
  simp only at h
  rcases bp with _ | ⟨a, bs⟩
  · rcases xp with _ | ⟨b, xs⟩
    · rcases h with h | h <;> exact absurd rfl h
    · simp [open_position]
  · simp [open_position]

/-- Witness for C5: one existing Binance position makes the open a pure skip. -/
theorem open_skip_when_position_exists_witness :
    open_position ⟨1/100, true⟩ ⟨false, 3, 1, [], false, true, [], 0⟩
        ⟨[⟨0⟩], [], some 1, some 1⟩ 3341 3334 7 =
      (⟨false, 3, 1, [], false, true, [], 0⟩, false, ⟨[], []⟩) :=
  open_skip_when_position_exists ⟨1/100, true⟩ ⟨false, 3, 1, [], false, true, [], 0⟩
    ⟨[⟨0⟩], [], some 1, some 1⟩ 3341 3334 7 (Or.inl (by simp))

/-- C6: a CLOSE trade record is appended iff at least one venue's close-all
succeeded; if both fail the operation reports failure and the trade log is
untouched; a partial close (exactly one venue closed) still appends exactly
one record and reports success. -/
theorem close_trade_record_iff_any_closed (st : ManagerState) (env : CloseEnv)
    (paxgPrice xauusdPrice diff : ℚ) :
    ((close_position st env paxgPrice xauusdPrice diff).1.tradeLog.length =
        st.tradeLog.length + 1 ↔
      (env.binanceCloseSuccess = true ∨ env.xauCloseSuccess = true)) ∧
    (env.binanceCloseSuccess = false → env.xauCloseSuccess = false →
      (close_position st env paxgPrice xauusdPrice diff).2 = false ∧
        (close_position st env paxgPrice xauusdPrice diff).1.tradeLog = st.tradeLog) ∧
    (env.binanceCloseSuccess ≠ env.xauCloseSuccess →
      (close_position st env paxgPrice xauusdPrice diff).1.tradeLog.length =
          st.tradeLog.length + 1 ∧
        (close_position st env paxgPrice xauusdPrice diff).2 = true) := by
  obtain ⟨b, x⟩ := env
  cases b <;> cases x <;> simp [close_position]

/-- Witness for C6: Binance closes, the XAUUSD venue fails: exactly one CLOSE
record is appended and the operation still reports success. -/
theorem close_trade_record_iff_any_closed_witness :
    (close_position ⟨true, 3, 1, [], false, true, [], 0⟩ ⟨true, false⟩
          3341 3339 2).1.tradeLog.length =
        (⟨true, 3, 1, [], false, true, [], 0⟩ : ManagerState).tradeLog.length + 1 ∧
      (close_position ⟨true, 3, 1, [], false, true, [], 0⟩ ⟨true, false⟩ 3341 3339 2).2 =
        true :=
  (close_trade_record_iff_any_closed ⟨true, 3, 1, [], false, true, [], 0⟩ ⟨true, false⟩
    3341 3339 2).2.2 (by simp)

/-- A first shutdown call leaves the one-shot flag set. -/
lemma shutdown_system_called (st : ManagerState) (e : Bool) :
    (shutdown_system st e).shutdownCalled = true := by
  by_cases h : st.shutdownCalled = true <;> simp [shutdown_system, h]

/-- A second shutdown call is the identity. -/
lemma shutdown_system_idem (st : ManagerState) (e e' : Bool) :
    shutdown_system (shutdown_system st e) e' = shutdown_system st e := by
  rw [shutdown_system, if_pos (shutdown_system_called st e)]

/-- C8: shutdown is idempotent: after the first call every further call (any
number, any trigger flags) returns the state unchanged, and the first call
from a live state emits exactly one shutdown message (when a notifier exists)
and exactly one shutdown log line. -/
theorem shutdown_idempotent_once :
    (∀ (st : ManagerState) (e e' : Bool),
        shutdown_system (shutdown_system st e) e' = shutdown_system st e) ∧
    (∀ (st : ManagerState) (e : Bool) (rest : List Bool),
        rest.foldl shutdown_system (shutdown_system st e) = shutdown_system st e) ∧
    (∀ (st : ManagerState) (e : Bool), st.shutdownCalled = false →
        (shutdown_system st e).messages.countP Message.isShutdownMsg =
            st.messages.countP Message.isShutdownMsg +
              (if st.hasNotifier then 1 else 0) ∧
          (shutdown_system st e).shutdownLogCount = st.shutdownLogCount + 1) := by
  refine ⟨shutdown_system_idem, fun st e rest => ?_, fun st e h => ?_⟩
  · induction rest with
    | nil => rfl
    | cons b t ih => rw [List.foldl_cons, shutdown_system_idem, ih]
  · by_cases hn : st.hasNotifier <;>
      simp [shutdown_system, h, hn, List.countP_append, Message.isShutdownMsg]

/-- Witness for C8: the first shutdown of a fresh manager with a notifier
emits exactly one shutdown message and one shutdown log line. -/
theorem shutdown_idempotent_once_witness :
    (shutdown_system ⟨false, 0, 0, [], false, true, [], 0⟩ false).messages.countP
          Message.isShutdownMsg =
        (⟨false, 0, 0, [], false, true, [], 0⟩ : ManagerState).messages.countP
            Message.isShutdownMsg +
          (if (⟨false, 0, 0, [], false, true, [], 0⟩ : ManagerState).hasNotifier
            then 1 else 0) ∧
      (shutdown_system ⟨false, 0, 0, [], false, true, [], 0⟩ false).shutdownLogCount =
        (⟨false, 0, 0, [], false, true, [], 0⟩ : ManagerState).shutdownLogCount + 1 :=
  shutdown_idempotent_once.2.2 ⟨false, 0, 0, [], false, true, [], 0⟩ false rfl

/-- C7: if an external interrupt signal arrives during an iteration of the
calendar blocking wait (every earlier iteration was still waiting: market
closed, no signal), the wait returns promptly at that very iteration — the
remaining events are never consumed — with the signal handler having driven
the graceful shutdown path (`shutdown_system` with `is_error=False`, hence
the one-shot shutdown notification and flag), and the engine stops
monitoring rather than resuming the trading loop as if the window had
opened. -/
theorem wait_signal_graceful_shutdown (st : ManagerState)
    (pre post : List (Bool × Bool)) (hpre : ∀ e ∈ pre, e = (false, false)) :
    wait_until_trading_time st (pre ++ (false, true) :: post) =
      (shutdown_system st false, Except.error SystemExit.mk) ∧
    monitorWaitPhase st (pre ++ (false, true) :: post) =
      (shutdown_system st false, MonitorAfterWait.stoppedMonitoring) := by
  have hw : wait_until_trading_time st (pre ++ (false, true) :: post) =
      (shutdown_system st false, Except.error SystemExit.mk) := by
    induction pre with
    | nil => rfl
    | cons e t ih =>
      have he := hpre e (List.mem_cons_self e t)
      subst he
      rw [List.cons_append]
      exact (ih fun x hx => hpre x (List.mem_cons_of_mem _ hx))
  refine ⟨hw, ?_⟩
  rw [monitorWaitPhase, hw]

/-- Witness for C7: one still-waiting iteration, then a signal: the wait
exits with `SystemExit` after the handler's graceful shutdown, and
monitoring stops. -/
theorem wait_signal_graceful_shutdown_witness :
    wait_until_trading_time ⟨false, 0, 0, [], false, true, [], 0⟩
        ([(false, false)] ++ (false, true) :: []) =
      (shutdown_system ⟨false, 0, 0, [], false, true, [], 0⟩ false,
        Except.error SystemExit.mk) ∧
      monitorWaitPhase ⟨false, 0, 0, [], false, true, [], 0⟩
          ([(false, false)] ++ (false, true) :: []) =
        (shutdown_system ⟨false, 0, 0, [], false, true, [], 0⟩ false,
          MonitorAfterWait.stoppedMonitoring) :=
  wait_signal_graceful_shutdown ⟨false, 0, 0, [], false, true, [], 0⟩
    [(false, false)] [] (by simp)

end XauArb
